import Mathlib

/-!
Shallow embedding of `deepspeed/utils/timer.py`.

Modelling conventions:
* Durations and wall-clock times are exact rationals (`ℚ`); Python floats are
  modelled as real-valued arithmetic, so `round` is mathematical
  round-half-to-even on `ℚ` (Python 3 banker's rounding).
* CUDA events are opaque timestamps on one device clock, so an event is its
  timestamp and the device-reported elapsed time between two events is their
  difference.
* Fallible Python code (`assert`, `raise`, division by zero, `len(None)`) is
  modelled with `Except String`; the string is the Python error message.
* `numpy.mean` of an empty array yields `nan` (with a warning, no exception);
  `nan` is modelled as `Option.none`.
* Mutation is modelled by explicit state passing: every method that mutates
  `self` returns the updated object.
-/

/-- Python 3 `round` to an integer: round half to even (banker's rounding),
applied to an exact rational. -/
def pythonRound (q : ℚ) : ℤ :=
  let f : ℤ := ⌊q⌋
  let r : ℚ := q - (f : ℚ)
  if r < 1/2 then f
  else if 1/2 < r then f + 1
  else if f % 2 = 0 then f else f + 1

/-- Python list slice `l[a:b]` for `0 ≤ a`, `0 ≤ b` (used as `data[k:n-k]`). -/
def pySlice (l : List ℚ) (a b : ℕ) : List ℚ :=
  (l.drop a).take (b - a)

/-- `numpy.mean` over a list: arithmetic mean; `nan` (here `none`) on the
empty list. -/
def npMean (l : List ℚ) : Option ℚ :=
  if l.isEmpty then none
  else some (l.sum / (l.length : ℚ))

/-- Number of elements trimmed from each end by `trim_mean`:
`k = int(round(n * trim_percent))`. -/
def trimCount (n : ℕ) (trim_percent : ℚ) : ℕ :=
  (pythonRound ((n : ℚ) * trim_percent)).toNat

/-- The computational body of `trim_mean` (after its assert has passed):
`data.sort(); k = int(round(n * trim_percent)); return mean(data[k:n - k])`. -/
def trimMeanRun (data : List ℚ) (trim_percent : ℚ) : Option ℚ :=
  let n := data.length
  let sorted := data.mergeSort
  let k := trimCount n trim_percent
  npMean (pySlice sorted k (n - k))

/-- `trim_mean(data, trim_percent)`:
`assert trim_percent >= 0.0 and trim_percent <= 1.0`, then sort ascending,
trim `k = round(n * trim_percent)` from each end and take the numpy mean. -/
def trim_mean (data : List ℚ) (trim_percent : ℚ) : Except String (Option ℚ) :=
  if 0 ≤ trim_percent ∧ trim_percent ≤ 1 then
    Except.ok (trimMeanRun data trim_percent)
  else
    Except.error "AssertionError: trim_percent out of range"

/-- `CudaEventTimer`: a pair of recorded CUDA events, each modelled by its
timestamp on the device clock (milliseconds). -/
structure CudaEventTimer where
  start_event : ℚ
  end_event : ℚ
deriving DecidableEq

/-- `CudaEventTimer.get_elapsed_msec`: waits for the end event and returns the
device-reported elapsed milliseconds between the two events (modelled as the
difference of the two timestamps; the blocking wait has no effect on state). -/
def CudaEventTimer.get_elapsed_msec (t : CudaEventTimer) : ℚ :=
  t.end_event - t.start_event

/-- `SynchronizedWallClockTimer.Timer`: a named start/stop timer buffering one
`CudaEventTimer` per completed interval. -/
structure Timer where
  name_ : String
  started_ : Bool
  event_timers : List CudaEventTimer
  start_event : Option ℚ
  elapsed_records : Option (List ℚ)
deriving DecidableEq

/-- `Timer.__init__(name)`. -/
def Timer.init (name : String) : Timer :=
  { name_ := name
    started_ := false
    event_timers := []
    start_event := none
    elapsed_records := none }

/-- The mutation performed by a successful `Timer.start()` at time `now`:
record a fresh start event and mark the timer started. -/
def Timer.startRun (t : Timer) (now : ℚ) : Timer :=
  { t with start_event := some now, started_ := true }

/-- `Timer.start()`: asserts the timer is not already started, then records a
start event. -/
def Timer.start (t : Timer) (now : ℚ) : Except String Timer :=
  if t.started_ then
    Except.error (t.name_ ++ " timer has already been started")
  else
    Except.ok (t.startRun now)

/-- The mutation performed by a successful `Timer.stop()` at time `now`:
record an end event, append the `CudaEventTimer` pair to the buffer, clear the
held start event and mark the timer stopped.  (The source's unused `reset` and
`record` parameters are omitted.) -/
def Timer.stopRun (t : Timer) (now : ℚ) : Timer :=
  { t with
    event_timers := t.event_timers ++ [⟨t.start_event.getD 0, now⟩]
    start_event := none
    started_ := false }

/-- `Timer.stop()`: asserts the timer is started, then records the interval. -/
def Timer.stop (t : Timer) (now : ℚ) : Except String Timer :=
  if t.started_ then Except.ok (t.stopRun now)
  else Except.error "timer is not started"

/-- `Timer._get_elapsed_msec()`: drains `event_timers` into
`elapsed_records` (the per-interval elapsed milliseconds) and returns their
sum. -/
def Timer.getElapsedMsec (t : Timer) : ℚ × Timer :=
  let recs := t.event_timers.map CudaEventTimer.get_elapsed_msec
  (recs.sum, { t with elapsed_records := some recs, event_timers := [] })

/-- `Timer.reset()`. -/
def Timer.reset (t : Timer) : Timer :=
  { t with
    started_ := false
    start_event := none
    elapsed_records := none
    event_timers := [] }

/-- `Timer.elapsed(reset=True)` at wall-clock time `now`: if running, stop
first (the source calls `self.stop()`, whose assert holds because it is
guarded by `if self.started_`); sum the buffered measurements; optionally
reset; restart if the timer had been running.  Total: it cannot fail. -/
def Timer.elapsed (t : Timer) (reset : Bool) (now : ℚ) : ℚ × Timer :=
  let started_ := t.started_
  let t1 := if t.started_ then t.stopRun now else t
  let p := t1.getElapsedMsec
  let t3 := if reset then p.2.reset else p.2
  let t4 := if started_ then t3.startRun now else t3
  (p.1, t4)

/-- `Timer.mean()`: `trim_mean(self.elapsed_records, 0.1)`; in Python a
`TypeError` if `elapsed_records` is still `None`. -/
def Timer.mean (t : Timer) : Except String (Option ℚ) :=
  match t.elapsed_records with
  | none => Except.error "TypeError: object of type NoneType has no len()"
  | some recs => trim_mean recs (1/10)

/-- `SynchronizedWallClockTimer`: the registry of named timers, modelled as an
association list in creation order. -/
structure SynchronizedWallClockTimer where
  timers : List (String × Timer)
deriving DecidableEq

/-- `SynchronizedWallClockTimer.__init__`. -/
def SynchronizedWallClockTimer.initRegistry : SynchronizedWallClockTimer := ⟨[]⟩

/-- `SynchronizedWallClockTimer.__call__(name)`: create the named timer on
first lookup. -/
def SynchronizedWallClockTimer.callTimer (s : SynchronizedWallClockTimer)
    (name : String) : SynchronizedWallClockTimer :=
  if (s.timers.lookup name).isSome then s
  else ⟨s.timers ++ [(name, Timer.init name)]⟩

/-- In-place mutation of the registry entry `name` (Python `self.timers[name]`
is mutated by `elapsed`); keys are unchanged. -/
def updateTimer (ts : List (String × Timer)) (name : String) (t : Timer) :
    List (String × Timer) :=
  ts.map (fun p => if p.1 = name then (name, t) else p)

/-- Python `"{:.2f}".format(q)`: fixed-point rendering with two decimals,
rounding half to even. -/
def format2f (q : ℚ) : String :=
  let r := pythonRound (q * 100)
  let sign := if r < 0 then "-" else ""
  let a := r.natAbs
  let frac := a % 100
  let fracStr := (if frac < 10 then "0" else "") ++ toString frac
  sign ++ toString (a / 100) ++ "." ++ fracStr

/-- The `for name in names` loop of `SynchronizedWallClockTimer.log`: skip
names absent from the registry, otherwise append
`" | {name}: {:.2f}".format(elapsed(reset)/normalizer)` and store the mutated
timer back. Returns the accumulated text and the final registry entries. -/
def logFold (normalizer : ℚ) (reset : Bool) (now : ℚ) :
    List (String × Timer) → List String → String × List (String × Timer)
  | ts, [] => ("", ts)
  | ts, name :: rest =>
    match ts.lookup name with
    | none => logFold normalizer reset now ts rest
    | some t =>
      let p := t.elapsed reset now
      let seg := " | " ++ name ++ ": " ++ format2f (p.1 / normalizer)
      let q := logFold normalizer reset now (updateTimer ts name p.2) rest
      (seg ++ q.1, q.2)

/-- Python `ranks or [0]`: `None` and the empty list are both falsy. -/
def ranksOrDefault (ranks : Option (List ℤ)) : List ℤ :=
  match ranks with
  | none => [0]
  | some [] => [0]
  | some l => l

/-- `SynchronizedWallClockTimer.log(names, normalizer, reset, ranks)` at
wall-clock `now`, on the process with rank `rank` (`dist.get_rank()` is an
external collaborator, passed in).  Returns the single line handed to
`log_dist`, the target ranks, and the mutated registry.  The source's unused
`memory_breakdown` parameter is omitted. -/
def SynchronizedWallClockTimer.log (s : SynchronizedWallClockTimer) (rank : ℤ)
    (names : List String) (normalizer : ℚ) (reset : Bool)
    (ranks : Option (List ℤ)) (now : ℚ) :
    Except String (String × List ℤ × SynchronizedWallClockTimer) :=
  if 0 < normalizer then
    let q := logFold normalizer reset now s.timers names
    Except.ok (s!"rank={rank} time (ms)" ++ q.1, ranksOrDefault ranks, ⟨q.2⟩)
  else Except.error "AssertionError: normalizer > 0.0"

/-- Python dict assignment `means[name] = v`: update in place if present,
else append. -/
def dictInsert (l : List (String × Option ℚ)) (k : String) (v : Option ℚ) :
    List (String × Option ℚ) :=
  if (l.lookup k).isSome then
    l.map (fun p => if p.1 = k then (k, v) else p)
  else l ++ [(k, v)]

/-- The `for name in names` loop of `get_mean`: skip absent names, otherwise
`means[name] = timer.mean() * 1000.0 / normalizer` (a `nan` mean propagates
through the scaling). -/
def meanFold (s : SynchronizedWallClockTimer) (normalizer : ℚ) :
    List String → List (String × Option ℚ) →
    Except String (List (String × Option ℚ))
  | [], means => Except.ok means
  | name :: rest, means =>
    match s.timers.lookup name with
    | none => meanFold s normalizer rest means
    | some t =>
      match t.mean with
      | Except.error e => Except.error e
      | Except.ok m =>
        meanFold s normalizer rest
          (dictInsert means name (m.map (fun x => x * 1000 / normalizer)))

/-- `SynchronizedWallClockTimer.get_mean(names, normalizer, reset)`; the
`reset` parameter is accepted and unused, exactly as in the source. -/
def SynchronizedWallClockTimer.get_mean (s : SynchronizedWallClockTimer)
    (names : List String) (normalizer : ℚ) (reset : Bool) :
    Except String (List (String × Option ℚ)) :=
  if 0 < normalizer then meanFold s normalizer names []
  else Except.error "AssertionError: normalizer > 0.0"

/-- The value recorded for a present name by `get_mean`:
`trim_mean(elapsed_records, 0.1) * 1000 / normalizer`, `none` when the mean is
`nan` (and junk `none` on states where the Python code would raise). -/
def meanScaled (s : SynchronizedWallClockTimer) (normalizer : ℚ)
    (name : String) : Option ℚ :=
  match s.timers.lookup name with
  | none => none
  | some t =>
    match t.elapsed_records with
    | none => none
    | some recs => (trimMeanRun recs (1/10)).map (fun x => x * 1000 / normalizer)

/-- A Python float that is either an ordinary value or `float("-inf")` (the
only non-finite value this code produces on purpose). -/
inductive PyFloat where
  | ninf
  | val (q : ℚ)
deriving DecidableEq

/-- `ThroughputTimer` state. -/
structure ThroughputTimer where
  start_time : ℚ
  end_time : ℚ
  started : Bool
  batch_size : ℚ
  num_workers : ℚ
  start_step : ℤ
  epoch_count : ℤ
  local_step_count : ℤ
  total_step_count : ℤ
  total_elapsed_time : ℚ
  steps_per_output : ℤ
  monitor_memory : Bool
  initialized : Bool
deriving DecidableEq

/-- `ThroughputTimer.__init__(batch_size, num_workers, start_step,
steps_per_output, monitor_memory, logging_fn)`: `batch_size=None` defaults to
1; requesting memory monitoring without psutil installed raises
`ImportError`.  The logging function is an external collaborator and carries
no state. -/
def ThroughputTimer.build (batch_size : Option ℚ) (num_workers : ℚ)
    (start_step : ℤ) (steps_per_output : ℤ) (monitor_memory : Bool)
    (psutilsInstalled : Bool) : Except String ThroughputTimer :=
  if monitor_memory && !psutilsInstalled then
    Except.error "ImportError: Unable to import 'psutils', please install package"
  else
    Except.ok
      { start_time := 0
        end_time := 0
        started := false
        batch_size := batch_size.getD 1
        num_workers := num_workers
        start_step := start_step
        epoch_count := 0
        local_step_count := 0
        total_step_count := 0
        total_elapsed_time := 0
        steps_per_output := steps_per_output
        monitor_memory := monitor_memory
        initialized := false }

/-- `ThroughputTimer.update_epoch_count()`. -/
def ThroughputTimer.update_epoch_count (t : ThroughputTimer) : ThroughputTimer :=
  { t with epoch_count := t.epoch_count + 1, local_step_count := 0 }

/-- `ThroughputTimer.start()` at wall-clock `now`: `_init_timer()`, mark
started, and — once warm-up is over — synchronize the device (no state
effect) and record the host start time. -/
def ThroughputTimer.start (t : ThroughputTimer) (now : ℚ) : ThroughputTimer :=
  let t1 := { t with initialized := true, started := true }
  if t1.total_step_count ≥ t1.start_step then { t1 with start_time := now }
  else t1

/-- `ThroughputTimer.stop(report_speed)` at wall-clock `now`: no-op when not
started; otherwise bump both step counters and, past warm-up, accumulate
`now - start_time` into `total_elapsed_time`.  The periodic status line
(every `steps_per_output` local steps) goes to the external logging
collaborator and touches no state, so it is not part of the transition. -/
def ThroughputTimer.stop (t : ThroughputTimer) (now : ℚ) : ThroughputTimer :=
  if !t.started then t
  else
    let t1 := { t with
      started := false
      total_step_count := t.total_step_count + 1
      local_step_count := t.local_step_count + 1 }
    if t1.total_step_count > t1.start_step then
      { t1 with
        end_time := now
        total_elapsed_time := t1.total_elapsed_time + (now - t1.start_time) }
    else t1

/-- `ThroughputTimer.avg_samples_per_sec()`: `float("-inf")` until the first
step; otherwise `(batch_size * num_workers) / (total_elapsed_time /
(total_step_count - start_step))`, with Python's `ZeroDivisionError` when
either divisor is zero. -/
def ThroughputTimer.avg_samples_per_sec (t : ThroughputTimer) :
    Except String PyFloat :=
  if 0 < t.total_step_count then
    let samples_per_step := t.batch_size * t.num_workers
    let total_step_offset : ℤ := t.total_step_count - t.start_step
    if total_step_offset = 0 then Except.error "ZeroDivisionError"
    else
      let avg_time_per_step := t.total_elapsed_time / (total_step_offset : ℚ)
      if avg_time_per_step = 0 then Except.error "ZeroDivisionError"
      else Except.ok (PyFloat.val (samples_per_step / avg_time_per_step))
  else Except.ok PyFloat.ninf

/-- One externally visible call on a `ThroughputTimer`, with the wall-clock
time at which it happens. -/
inductive TTOp where
  | start (now : ℚ)
  | stop (now : ℚ)
  | update_epoch_count
deriving DecidableEq

/-- Apply one call to the state. -/
def TTOp.apply (op : TTOp) (t : ThroughputTimer) : ThroughputTimer :=
  match op with
  | .start now => t.start now
  | .stop now => t.stop now
  | .update_epoch_count => t.update_epoch_count

/-- Run a sequence of calls. -/
def ThroughputTimer.exec (t : ThroughputTimer) (ops : List TTOp) :
    ThroughputTimer :=
  ops.foldl (fun s op => op.apply s) t

/-- Run a list of completed `start`/`stop` cycles, given as (start time,
stop time) pairs, through the protocol-checked `Timer` API. -/
def runCycles (t : Timer) : List (ℚ × ℚ) → Except String Timer
  | [] => Except.ok t
  | c :: rest =>
    match t.start c.1 with
    | Except.error e => Except.error e
    | Except.ok t1 =>
      match t1.stop c.2 with
      | Except.error e => Except.error e
      | Except.ok t2 => runCycles t2 rest

/-- The `ThroughputTimer` built by
`ThroughputTimer(batch_size=32, num_workers=4, start_step=2)`. -/
def throughput32x4 : ThroughputTimer :=
  { start_time := 0
    end_time := 0
    started := false
    batch_size := 32
    num_workers := 4
    start_step := 2
    epoch_count := 0
    local_step_count := 0
    total_step_count := 0
    total_elapsed_time := 0
    steps_per_output := 50
    monitor_memory := false
    initialized := false }

/-- Five `start`/`stop` cycles, each lasting exactly 0.1 s. -/
def fiveCycles : List TTOp :=
  [TTOp.start 0, TTOp.stop (1/10),
   TTOp.start 1, TTOp.stop (11/10),
   TTOp.start 2, TTOp.stop (21/10),
   TTOp.start 3, TTOp.stop (31/10),
   TTOp.start 4, TTOp.stop (41/10)]

/- ------------------------------------------------------------------ -/
/- Lemmas                                                              -/
/- ------------------------------------------------------------------ -/

theorem runCycles_ok (cycles : List (ℚ × ℚ)) :
    ∀ (t : Timer), t.started_ = false →
    ∃ t', runCycles t cycles = Except.ok t' ∧ t'.started_ = false ∧
      t'.event_timers =
        t.event_timers ++ cycles.map (fun c => CudaEventTimer.mk c.1 c.2) := by
  induction cycles with
  | nil => intro t h; exact ⟨t, rfl, h, by simp⟩
  | cons c rest ih =>
    intro t h
    have hstart : t.start c.1 = Except.ok (t.startRun c.1) := by
      simp [Timer.start, h]
    have hstop : (t.startRun c.1).stop c.2 =
        Except.ok ((t.startRun c.1).stopRun c.2) := by
      simp [Timer.stop, Timer.startRun]
    obtain ⟨t', h1, h2, h3⟩ := ih ((t.startRun c.1).stopRun c.2) (by rfl)
    refine ⟨t', ?_, h2, ?_⟩
    · rw [runCycles, hstart]
      dsimp only
      rw [hstop]
      dsimp only
      exact h1
    · simp [Timer.stopRun, Timer.startRun] at h3
      simp [h3]

theorem elapsed_fst_of_not_started (t : Timer) (h : t.started_ = false)
    (reset : Bool) (now : ℚ) :
    (t.elapsed reset now).1 =
      (t.event_timers.map CudaEventTimer.get_elapsed_msec).sum := by
  simp [Timer.elapsed, h, Timer.getElapsedMsec]

theorem avg_ok (t : ThroughputTimer) (hpos : 0 < t.total_step_count)
    (hne : t.total_step_count ≠ t.start_step) (hel : t.total_elapsed_time ≠ 0) :
    t.avg_samples_per_sec = Except.ok (PyFloat.val
      ((t.batch_size * t.num_workers) /
        (t.total_elapsed_time / ((t.total_step_count - t.start_step : ℤ) : ℚ)))) := by
  have hoff : t.total_step_count - t.start_step ≠ 0 := sub_ne_zero.mpr hne
  have hcast : ((t.total_step_count - t.start_step : ℤ) : ℚ) ≠ 0 :=
    Int.cast_ne_zero.mpr hoff
  have havg : t.total_elapsed_time /
      ((t.total_step_count - t.start_step : ℤ) : ℚ) ≠ 0 :=
    div_ne_zero hel hcast
  simp only [ThroughputTimer.avg_samples_per_sec, hpos, if_true]
  rw [if_neg hoff, if_neg havg]

theorem avg_err_offset (t : ThroughputTimer) (hpos : 0 < t.total_step_count)
    (heq : t.total_step_count = t.start_step) :
    t.avg_samples_per_sec = Except.error "ZeroDivisionError" := by
  simp only [ThroughputTimer.avg_samples_per_sec, hpos, if_true]
  rw [if_pos (sub_eq_zero.mpr heq)]

theorem avg_err_elapsed (t : ThroughputTimer) (hpos : 0 < t.total_step_count)
    (hel : t.total_elapsed_time = 0) :
    t.avg_samples_per_sec = Except.error "ZeroDivisionError" := by
  simp only [ThroughputTimer.avg_samples_per_sec, hpos, if_true]
  by_cases hoff : t.total_step_count - t.start_step = 0
  · rw [if_pos hoff]
  · rw [if_neg hoff, if_pos (by rw [hel, zero_div])]

theorem pythonRound_nonneg (q : ℚ) (h : 0 ≤ q) : 0 ≤ pythonRound q := by
  have hf : (0 : ℤ) ≤ ⌊q⌋ := Int.floor_nonneg.mpr h
  simp only [pythonRound]
  split_ifs <;> omega

theorem trimCount_cast (n : ℕ) (p : ℚ) (h0 : 0 ≤ p) :
    ((trimCount n p : ℕ) : ℤ) = pythonRound ((n : ℚ) * p) :=
  Int.toNat_of_nonneg (pythonRound_nonneg _ (mul_nonneg (Nat.cast_nonneg n) h0))

/-- The slice `data[k : n-k]` has exactly `n - 2k` elements (truncated
subtraction) whenever the underlying list has length `n`. -/
theorem pySlice_trim_length (l : List ℚ) (k : ℕ) :
    (pySlice l k (l.length - k)).length = l.length - 2 * k := by
  simp only [pySlice, List.length_take, List.length_drop]
  omega

/- ------------------------------------------------------------------ -/
/- Claims                                                              -/
/- ------------------------------------------------------------------ -/

/-- **C1**: for every sequence of completed start/stop cycles on a named timer
(no aggregation in between), `elapsed()` returns the arithmetic sum of the
per-interval elapsed durations reported by the buffered measurements; in
particular, for three intervals measured at 10 ms, 12 ms and 100 ms,
`elapsed()` returns 122 ms. -/
theorem claim_C1 :
    (∀ (name : String) (cycles : List (ℚ × ℚ)) (reset : Bool) (now : ℚ),
      (runCycles (Timer.init name) cycles).map (fun t => (t.elapsed reset now).1)
        = Except.ok ((cycles.map
            (fun c => CudaEventTimer.get_elapsed_msec ⟨c.1, c.2⟩)).sum)) ∧
    (runCycles (Timer.init "t") [(0, 10), (12, 24), (30, 130)]).map
        (fun t => (t.elapsed true 0).1) = Except.ok 122 := by
  constructor
  · intro name cycles reset now
    obtain ⟨t', h1, h2, h3⟩ := runCycles_ok cycles (Timer.init name) rfl
    rw [h1]
    simp only [Except.map]
    rw [elapsed_fst_of_not_started t' h2, h3]
    simp [Timer.init, List.map_map, Function.comp_def]
  · obtain ⟨t', h1, h2, h3⟩ :=
      runCycles_ok [((0:ℚ), (10:ℚ)), (12, 24), (30, 130)] (Timer.init "t") rfl
    rw [h1]
    simp only [Except.map]
    rw [elapsed_fst_of_not_started t' h2, h3]
    norm_num [Timer.init, CudaEventTimer.get_elapsed_msec]

/-- **C4**: under any single `start`/`stop`/`update_epoch_count` call,
`total_elapsed_time` either stays unchanged or the call was a `stop` of a
running timer whose post-increment `total_step_count` exceeds `start_step`,
in which case exactly that step's duration is accumulated.  Hence warm-up
steps never change `total_elapsed_time` in any reachable state. -/
theorem claim_C4 (t : ThroughputTimer) (op : TTOp) :
    (op.apply t).total_elapsed_time = t.total_elapsed_time ∨
    ∃ now, op = TTOp.stop now ∧ t.started = true ∧
      t.start_step < t.total_step_count + 1 ∧
      (op.apply t).total_elapsed_time =
        t.total_elapsed_time + (now - t.start_time) := by
  cases op with
  | start now =>
    left
    by_cases h : t.total_step_count ≥ t.start_step <;>
      simp [TTOp.apply, ThroughputTimer.start, h]
  | update_epoch_count =>
    left; rfl
  | stop now =>
    by_cases hs : t.started
    · by_cases hw : t.start_step < t.total_step_count + 1
      · right
        exact ⟨now, rfl, hs, hw, by simp [TTOp.apply, ThroughputTimer.stop, hs, hw]⟩
      · left
        simp [TTOp.apply, ThroughputTimer.stop, hs, hw]
    · left
      simp [TTOp.apply, ThroughputTimer.stop, hs]

/-- **C3**: `avg_samples_per_sec()` returns negative infinity whenever
`total_step_count == 0`; whenever `total_step_count > 0` (and the two
divisions are defined) it returns
`(batch_size * num_workers) / (total_elapsed_time / (total_step_count -
start_step))`; and with `batch_size=32`, `num_workers=4`, `start_step=2`,
after five start/stop cycles of exactly 0.1 s each it equals `(32*4)/0.1`. -/
theorem claim_C3 :
    (∀ t : ThroughputTimer, t.total_step_count = 0 →
      t.avg_samples_per_sec = Except.ok PyFloat.ninf) ∧
    (∀ t : ThroughputTimer, 0 < t.total_step_count →
      t.total_step_count ≠ t.start_step → t.total_elapsed_time ≠ 0 →
      t.avg_samples_per_sec = Except.ok (PyFloat.val
        ((t.batch_size * t.num_workers) /
          (t.total_elapsed_time / ((t.total_step_count - t.start_step : ℤ) : ℚ))))) ∧
    ThroughputTimer.build (some 32) 4 2 50 false true = Except.ok throughput32x4 ∧
    (throughput32x4.exec fiveCycles).avg_samples_per_sec =
      Except.ok (PyFloat.val ((32 * 4) / (1/10))) := by
  refine ⟨?_, ?_, rfl, ?_⟩
  · intro t h
    simp [ThroughputTimer.avg_samples_per_sec, h]
  · exact fun t h1 h2 h3 => avg_ok t h1 h2 h3
  · norm_num [ThroughputTimer.exec, fiveCycles, TTOp.apply,
      ThroughputTimer.start, ThroughputTimer.stop, throughput32x4,
      ThroughputTimer.avg_samples_per_sec]

/-- Witness for C3 at concrete inputs: the fresh tracker returns the
negative-infinity sentinel, and the tracker after the five measured cycles
returns 1280 samples/s. -/
theorem claim_C3_witness :
    throughput32x4.avg_samples_per_sec = Except.ok PyFloat.ninf ∧
    (throughput32x4.exec fiveCycles).avg_samples_per_sec =
      Except.ok (PyFloat.val 1280) := by
  refine ⟨claim_C3.1 throughput32x4 rfl, ?_⟩
  have h := claim_C3.2.2.2
  rw [h]
  norm_num

/-- **C9** (implicit): the negative-infinity sentinel of
`avg_samples_per_sec` covers only `total_step_count == 0`; for
`0 < total_step_count ≤ start_step` the division branch is still taken, so at
`total_step_count == start_step` the code divides by zero
(`ZeroDivisionError`), and for `0 < total_step_count < start_step` the divisor
`total_step_count - start_step` is negative, so the call yields either a
`ZeroDivisionError` (when `total_elapsed_time` is 0, as in every reachable
warm-up state) or a non-positive rate — never a meaningful positive one. -/
theorem claim_C9 (t : ThroughputTimer) :
    (0 ≤ t.total_step_count →
      (t.avg_samples_per_sec = Except.ok PyFloat.ninf ↔ t.total_step_count = 0)) ∧
    (t.total_step_count = t.start_step → 0 < t.total_step_count →
      t.avg_samples_per_sec = Except.error "ZeroDivisionError") ∧
    (0 < t.total_step_count → t.total_step_count < t.start_step →
      t.total_step_count - t.start_step < 0 ∧
      (t.total_elapsed_time = 0 →
        t.avg_samples_per_sec = Except.error "ZeroDivisionError") ∧
      (0 ≤ t.total_elapsed_time → 0 ≤ t.batch_size * t.num_workers →
        ∀ q, t.avg_samples_per_sec = Except.ok (PyFloat.val q) → q ≤ 0)) := by
  refine ⟨?_, ?_, ?_⟩
  · intro hnn
    constructor
    · intro h
      by_contra hne
      have hpos : 0 < t.total_step_count := lt_of_le_of_ne hnn (Ne.symm hne)
      rcases eq_or_ne t.total_elapsed_time 0 with hel | hel
      · rw [avg_err_elapsed t hpos hel] at h
        exact Except.noConfusion h
      · rcases eq_or_ne t.total_step_count t.start_step with heq | hneq
        · rw [avg_err_offset t hpos heq] at h
          exact Except.noConfusion h
        · rw [avg_ok t hpos hneq hel] at h
          simp at h
    · intro h
      simp [ThroughputTimer.avg_samples_per_sec, h]
  · intro heq hpos
    exact avg_err_offset t hpos heq
  · intro hpos hlt
    have hoff : t.total_step_count - t.start_step < 0 := sub_neg.mpr hlt
    refine ⟨hoff, fun hz => avg_err_elapsed t hpos hz, ?_⟩
    intro hel hsamp q hq
    rcases eq_or_ne t.total_elapsed_time 0 with hz | hz
    · rw [avg_err_elapsed t hpos hz] at hq
      exact Except.noConfusion hq
    · rw [avg_ok t hpos hlt.ne hz] at hq
      have hq' : (t.batch_size * t.num_workers) /
          (t.total_elapsed_time / ((t.total_step_count - t.start_step : ℤ) : ℚ)) = q := by
        have := Except.ok.inj hq
        exact PyFloat.val.inj this
      have hcast : ((t.total_step_count - t.start_step : ℤ) : ℚ) < 0 := by
        exact_mod_cast hoff
      have helpos : 0 < t.total_elapsed_time := lt_of_le_of_ne hel (Ne.symm hz)
      have havgneg : t.total_elapsed_time /
          ((t.total_step_count - t.start_step : ℤ) : ℚ) < 0 :=
        div_neg_of_pos_of_neg helpos hcast
      rw [← hq']
      exact div_nonpos_of_nonneg_of_nonpos hsamp havgneg.le

/-- Witness for C9 at concrete inputs: at `total_step_count = start_step = 1`
the call raises `ZeroDivisionError`, and at
`total_step_count = 1 < start_step = 2` (with 1 s accumulated) it returns a
non-positive rate. -/
theorem claim_C9_witness :
    ({ throughput32x4 with total_step_count := 1, start_step := 1 } :
        ThroughputTimer).avg_samples_per_sec = Except.error "ZeroDivisionError" ∧
    (({ throughput32x4 with total_step_count := 1, total_elapsed_time := 1 } :
        ThroughputTimer).avg_samples_per_sec = Except.ok (PyFloat.val (-128)) ∧
      (-128 : ℚ) ≤ 0) := by
  refine ⟨(claim_C9 _).2.1 rfl (by norm_num), ?_, ?_⟩
  · norm_num [ThroughputTimer.avg_samples_per_sec, throughput32x4]
  · have h := ((claim_C9 ({ throughput32x4 with
        total_step_count := 1, total_elapsed_time := 1 })).2.2
      (by norm_num) (by norm_num [throughput32x4])).2.2
      (by norm_num) (by norm_num [throughput32x4]) (-128)
    apply h
    norm_num [ThroughputTimer.avg_samples_per_sec, throughput32x4]

/-- Boolean success test for `Except`, used by concrete witnesses. -/
def exceptOk {ε α : Type} : Except ε α → Bool
  | Except.ok _ => true
  | Except.error _ => false

/-- **C2**: `trim_mean` sorts the list ascending, computes
`k = round(n * p)`, discards the first and last `k` elements and returns the
arithmetic mean of the remaining `n - 2k` elements; it fails (precondition
violation) for any `p` outside `[0, 1]`. -/
theorem claim_C2 (data : List ℚ) (p : ℚ) :
    (¬(0 ≤ p ∧ p ≤ 1) → trim_mean data p =
      Except.error "AssertionError: trim_percent out of range") ∧
    (0 ≤ p → p ≤ 1 →
      ∃ sorted : List ℚ, sorted.Perm data ∧ sorted.Sorted (· ≤ ·) ∧
      ∃ k : ℕ, (k : ℤ) = pythonRound ((data.length : ℚ) * p) ∧
        trim_mean data p =
          Except.ok (npMean (pySlice sorted k (data.length - k))) ∧
        (pySlice sorted k (data.length - k)).length = data.length - 2 * k ∧
        (∀ l : List ℚ, l ≠ [] → npMean l = some (l.sum / (l.length : ℚ)))) := by
  constructor
  · intro h
    rw [trim_mean, if_neg h]
  · intro h0 h1
    refine ⟨data.mergeSort, List.mergeSort_perm data _, List.sorted_mergeSort' data,
      trimCount data.length p, trimCount_cast data.length p h0, ?_, ?_, ?_⟩
    · rw [trim_mean, if_pos ⟨h0, h1⟩]
      rfl
    · have hlen : (data.mergeSort).length = data.length := List.length_mergeSort data
      calc (pySlice data.mergeSort (trimCount data.length p)
              (data.length - trimCount data.length p)).length
          = (pySlice data.mergeSort (trimCount data.length p)
              ((data.mergeSort).length - trimCount data.length p)).length := by rw [hlen]
        _ = (data.mergeSort).length - 2 * trimCount data.length p :=
            pySlice_trim_length _ _
        _ = data.length - 2 * trimCount data.length p := by rw [hlen]
    · intro l hl
      rw [npMean, if_neg (by simpa [List.isEmpty_iff] using hl)]

/-- Witness for C2 at concrete inputs: `p = 2` violates the precondition, and
`trim_mean([1,2,3], 0.1)` succeeds. -/
theorem claim_C2_witness :
    trim_mean [1] 2 = Except.error "AssertionError: trim_percent out of range" ∧
    exceptOk (trim_mean [1, 2, 3] (1/10)) = true := by
  refine ⟨(claim_C2 [1] 2).1 (by norm_num), ?_⟩
  obtain ⟨s, -, -, k, -, h, -, -⟩ :=
    (claim_C2 [1, 2, 3] (1/10)).2 (by norm_num) (by norm_num)
  rw [h]
  rfl

/-- **C10** (implicit): whenever `2 * round(n * p) ≥ n` (e.g. `p = 0.5` with
even `n`, or any `p` with `n = 0`), the slice `data[k : n-k]` kept by
`trim_mean` is empty and `trim_mean` returns the numpy mean of an empty
sequence (`nan`, modelled `none`) instead of raising an error or falling back
to the untrimmed mean. -/
theorem claim_C10 (data : List ℚ) (p : ℚ) (h0 : 0 ≤ p) (h1 : p ≤ 1)
    (hdeg : data.length ≤ 2 * trimCount data.length p) :
    pySlice data.mergeSort (trimCount data.length p)
      (data.length - trimCount data.length p) = [] ∧
    trim_mean data p = Except.ok none := by
  have hempty : pySlice data.mergeSort (trimCount data.length p)
      (data.length - trimCount data.length p) = [] := by
    have : (pySlice data.mergeSort (trimCount data.length p)
        (data.length - trimCount data.length p)).length = 0 := by
      have hlen : (data.mergeSort).length = data.length := List.length_mergeSort data
      calc (pySlice data.mergeSort (trimCount data.length p)
              (data.length - trimCount data.length p)).length
          = (pySlice data.mergeSort (trimCount data.length p)
              ((data.mergeSort).length - trimCount data.length p)).length := by rw [hlen]
        _ = (data.mergeSort).length - 2 * trimCount data.length p :=
            pySlice_trim_length _ _
        _ = 0 := by omega
    exact List.length_eq_zero.mp this
  refine ⟨hempty, ?_⟩
  rw [trim_mean, if_pos ⟨h0, h1⟩]
  show Except.ok (trimMeanRun data p) = Except.ok none
  rw [trimMeanRun]
  show Except.ok (npMean (pySlice data.mergeSort (trimCount data.length p)
    (data.length - trimCount data.length p))) = Except.ok none
  rw [hempty]
  rfl

/-- Witness for C10 at a concrete input: `trim_mean([1,2], 0.5)` trims one
element from each end, keeps nothing, and returns the `nan` mean of an empty
slice. -/
theorem claim_C10_witness : trim_mean [1, 2] (1/2) = Except.ok none :=
  (claim_C10 [1, 2] (1/2) (by norm_num) (by norm_num)
    (by norm_num [trimCount, pythonRound])).2

/-- The timer `t` after one completed cycle measured from 0 ms to 10 ms. -/
def c5timer : Timer := (Timer.init "t").startRun 0 |>.stopRun 10

/-- Counterexample to **C5** as stated: after one buffered 10 ms interval, the
first `elapsed(reset=False)` returns 10 but the second returns 0 — the two
reads differ because the first drains the buffer. -/
theorem claim_C5_counterexample :
    runCycles (Timer.init "t") [(0, 10)] = Except.ok c5timer ∧
    (c5timer.elapsed false 0).1 = 10 ∧
    (((c5timer.elapsed false 0).2).elapsed false 0).1 = 0 ∧
    (10 : ℚ) ≠ 0 := by
  refine ⟨rfl, ?_, ?_, by norm_num⟩
  · norm_num [c5timer, Timer.elapsed, Timer.getElapsedMsec, Timer.stopRun,
      Timer.startRun, Timer.init, CudaEventTimer.get_elapsed_msec]
  · norm_num [c5timer, Timer.elapsed, Timer.getElapsedMsec, Timer.stopRun,
      Timer.startRun, Timer.init, CudaEventTimer.get_elapsed_msec]

/-- **C5**, amended: for a timer that is not running,
`elapsed(reset=False)` drains the measurement buffer, so a second call with
no intervening start/stop always returns 0; the two calls agree only when the
first also returns 0. -/
theorem claim_C5_amended (t : Timer) (now1 now2 : ℚ)
    (h : t.started_ = false) :
    ((t.elapsed false now1).2).event_timers = [] ∧
    (((t.elapsed false now1).2).elapsed false now2).1 = 0 := by
  have h2 : ((t.elapsed false now1).2).event_timers = [] := by
    simp [Timer.elapsed, h, Timer.getElapsedMsec]
  have hs : ((t.elapsed false now1).2).started_ = false := by
    simp [Timer.elapsed, h, Timer.getElapsedMsec]
  refine ⟨h2, ?_⟩
  rw [elapsed_fst_of_not_started _ hs, h2]
  simp

/-- Witness for the amended C5 at a concrete input. -/
theorem claim_C5_witness :
    (((Timer.init "w").elapsed false 1).2).event_timers = [] ∧
    ((((Timer.init "w").elapsed false 1).2).elapsed false 2).1 = 0 :=
  claim_C5_amended (Timer.init "w") 1 2 rfl

/-- **C6**: `start()` fails with the "already started" protocol error iff the
timer is running, `stop()` fails with the "not started" protocol error iff it
is not running; a successful `start` makes the timer running without touching
the buffer, and a successful `stop` appends exactly one measurement and
leaves the timer stopped. -/
theorem claim_C6 (t : Timer) (now : ℚ) :
    (t.started_ = true →
      t.start now = Except.error (t.name_ ++ " timer has already been started")) ∧
    (t.started_ = false →
      ∃ t', t.start now = Except.ok t' ∧ t'.started_ = true ∧
        t'.event_timers = t.event_timers) ∧
    (t.started_ = false → t.stop now = Except.error "timer is not started") ∧
    (t.started_ = true →
      ∃ t' m, t.stop now = Except.ok t' ∧ t'.started_ = false ∧
        t'.event_timers = t.event_timers ++ [m]) := by
  refine ⟨?_, ?_, ?_, ?_⟩
  · intro h
    simp [Timer.start, h]
  · intro h
    exact ⟨t.startRun now, by simp [Timer.start, h], rfl, rfl⟩
  · intro h
    simp [Timer.stop, h]
  · intro h
    exact ⟨t.stopRun now, ⟨t.start_event.getD 0, now⟩,
      by simp [Timer.stop, h], rfl, rfl⟩

/-- Witness for C6 at concrete inputs: both protocol errors fire, and both
success paths succeed. -/
theorem claim_C6_witness :
    (Timer.init "a").stop 5 = Except.error "timer is not started" ∧
    ((Timer.init "a").startRun 0).start 5 =
      Except.error ("a" ++ " timer has already been started") ∧
    exceptOk ((Timer.init "a").start 0) = true ∧
    exceptOk (((Timer.init "a").startRun 0).stop 5) = true := by
  refine ⟨(claim_C6 (Timer.init "a") 5).2.2.1 rfl,
          (claim_C6 ((Timer.init "a").startRun 0) 5).1 rfl, ?_, ?_⟩
  · obtain ⟨t', h, -, -⟩ := (claim_C6 (Timer.init "a") 0).2.1 rfl
    rw [h]
    rfl
  · obtain ⟨t', m, h, -, -⟩ := (claim_C6 ((Timer.init "a").startRun 0) 5).2.2.2 rfl
    rw [h]
    rfl

/-- The timer named `a` holding one buffered 10 ms measurement. -/
def timerA : Timer := { Timer.init "a" with event_timers := [⟨0, 10⟩] }

/-- A registry in which only the timer `a` exists. -/
def c7swct : SynchronizedWallClockTimer := ⟨[("a", timerA)]⟩

theorem lookup_updateTimer (ts : List (String × Timer)) (n : String) (t : Timer)
    (m : String) :
    ((updateTimer ts n t).lookup m).isSome = (ts.lookup m).isSome := by
  induction ts with
  | nil => rfl
  | cons p rest ih =>
    obtain ⟨k, tv⟩ := p
    simp only [updateTimer, List.map_cons] at ih ⊢
    by_cases hp : k = n
    · subst hp
      by_cases hm : m = k
      · subst hm
        simp [List.lookup_cons]
      · have e1 : (m == k) = false := by simp [hm]
        simp [List.lookup_cons, e1, ih]
    · by_cases hm : m = k
      · subst hm
        simp [List.lookup_cons, hp]
      · have e1 : (m == k) = false := by simp [hm]
        simp [List.lookup_cons, e1, hp, ih]

theorem logFold_contains (normalizer : ℚ) (reset : Bool) (now : ℚ) :
    ∀ (names : List String) (ts : List (String × Timer)) (name : String),
      name ∈ names → (ts.lookup name).isSome = true →
      (" | " ++ name ++ ": ").data <:+:
        ((logFold normalizer reset now ts names).1).data := by
  intro names
  induction names with
  | nil =>
    intro ts name h _
    cases h
  | cons hd rest ih =>
    intro ts name hmem hsome
    rcases List.mem_cons.mp hmem with hname | hname
    · subst hname
      cases hlk : ts.lookup name with
      | none => rw [hlk] at hsome; cases hsome
      | some t =>
        simp only [logFold, hlk]
        refine ⟨[], (format2f ((t.elapsed reset now).1 / normalizer)).data ++
          ((logFold normalizer reset now
            (updateTimer ts name (t.elapsed reset now).2) rest).1).data, ?_⟩
        simp [String.data_append]
    · cases hlk : ts.lookup hd with
      | none =>
        simp only [logFold, hlk]
        exact ih ts name hname hsome
      | some t =>
        simp only [logFold, hlk]
        have hsome' :
            ((updateTimer ts hd (t.elapsed reset now).2).lookup name).isSome = true := by
          rw [lookup_updateTimer]
          exact hsome
        obtain ⟨u, v, huv⟩ :=
          ih (updateTimer ts hd (t.elapsed reset now).2) name hname hsome'
        refine ⟨(" | " ++ hd ++ ": " ++
          format2f ((t.elapsed reset now).1 / normalizer)).data ++ u, v, ?_⟩
        simp only [String.data_append]
        rw [← huv]
        simp [List.append_assoc]

theorem logFold_skip (normalizer : ℚ) (reset : Bool) (now : ℚ) :
    ∀ (names : List String) (ts : List (String × Timer)),
      logFold normalizer reset now ts names =
        logFold normalizer reset now ts
          (names.filter (fun n => (ts.lookup n).isSome)) := by
  intro names
  induction names with
  | nil => intro ts; rfl
  | cons hd rest ih =>
    intro ts
    cases hlk : ts.lookup hd with
    | none =>
      have hf : (ts.lookup hd).isSome = false := by rw [hlk]; rfl
      rw [List.filter_cons]
      simp only [hf, Bool.false_eq_true, if_false]
      simp only [logFold, hlk]
      exact ih ts
    | some t =>
      have hf : (ts.lookup hd).isSome = true := by rw [hlk]; rfl
      rw [List.filter_cons]
      simp only [hf, if_true]
      simp only [logFold, hlk]
      have hfc : rest.filter
          (fun n => ((updateTimer ts hd ((t.elapsed reset now).2)).lookup n).isSome) =
          rest.filter (fun n => (ts.lookup n).isSome) :=
        List.filter_congr (fun a _ => by rw [lookup_updateTimer])
      rw [ih (updateTimer ts hd ((t.elapsed reset now).2)), hfc]

theorem timerA_elapsed : timerA.elapsed true 0 = (10, Timer.init "a") := by
  norm_num [timerA, Timer.elapsed, Timer.getElapsedMsec, Timer.reset,
    Timer.init, CudaEventTimer.get_elapsed_msec]

theorem format2f_five : format2f 5 = "5.00" := by
  have h : pythonRound ((5 : ℚ) * 100) = 500 := by norm_num [pythonRound]
  simp [format2f, h]
  rfl

theorem c7fold :
    logFold 2 true 0 [("a", timerA)] ["a", "b"] =
      (" | a: 5.00", [("a", Timer.init "a")]) := by
  have h1 : List.lookup "a" [("a", timerA)] = some timerA := by
    simp [List.lookup_cons]
  have h2 : (10 : ℚ) / 2 = 5 := by norm_num
  have h3 : updateTimer [("a", timerA)] "a" (Timer.init "a") =
      [("a", Timer.init "a")] := by
    simp [updateTimer]
  have h4 : List.lookup "b" [("a", Timer.init "a")] = none := by
    simp [List.lookup_cons]
  rw [logFold, h1]
  dsimp only
  rw [timerA_elapsed]
  dsimp only
  rw [h2, format2f_five, h3, logFold, h4]
  dsimp only
  rw [logFold]
  simp

theorem c7log_concrete :
    c7swct.log 0 ["a", "b"] 2 true none 0 =
      Except.ok ("rank=0 time (ms) | a: 5.00", [0],
        (⟨[("a", Timer.init "a")]⟩ : SynchronizedWallClockTimer)) := by
  have hpos : (0:ℚ) < 2 := by norm_num
  simp only [SynchronizedWallClockTimer.log, if_pos hpos]
  dsimp only [c7swct]
  rw [c7fold]
  rfl

/-- **C7**: with `normalizer > 0`, `log` emits exactly one line, prefixed with
the caller's rank, containing `" | name: value"` for every requested name
present in the registry (value = `elapsed(reset)/normalizer` to 2 decimal
places); absent names contribute nothing (the line equals the one produced
from the present names alone, and in the concrete `["a","b"]` scenario the
letter `b` never appears); the line goes to the given rank set, defaulting to
rank 0 only. -/
theorem claim_C7 (s : SynchronizedWallClockTimer) (rank : ℤ)
    (names : List String) (normalizer : ℚ) (reset : Bool)
    (ranks : Option (List ℤ)) (now : ℚ) (h : 0 < normalizer) :
    (∃ line s',
      s.log rank names normalizer reset ranks now =
        Except.ok (line, ranksOrDefault ranks, s') ∧
      (s!"rank={rank} time (ms)").data <+: line.data ∧
      (∀ name, name ∈ names → ((s.timers.lookup name).isSome = true) →
        (" | " ++ name ++ ": ").data <:+: line.data)) ∧
    (ranks = none → ranksOrDefault ranks = [0]) ∧
    s.log rank names normalizer reset ranks now =
      s.log rank (names.filter (fun n => (s.timers.lookup n).isSome))
        normalizer reset ranks now ∧
    c7swct.log 0 ["a", "b"] 2 true none 0 =
      Except.ok ("rank=0 time (ms) | a: 5.00", [0],
        (⟨[("a", Timer.init "a")]⟩ : SynchronizedWallClockTimer)) ∧
    ('b' ∉ "rank=0 time (ms) | a: 5.00".data) := by
  refine ⟨?_, ?_, ?_, c7log_concrete, by decide⟩
  · refine ⟨s!"rank={rank} time (ms)" ++
        (logFold normalizer reset now s.timers names).1,
      ⟨(logFold normalizer reset now s.timers names).2⟩, ?_, ?_, ?_⟩
    · simp only [SynchronizedWallClockTimer.log, if_pos h]
    · rw [String.data_append]
      exact ⟨_, rfl⟩
    · intro name hmem hsome
      obtain ⟨u, v, huv⟩ :=
        logFold_contains normalizer reset now names s.timers name hmem hsome
      refine ⟨(s!"rank={rank} time (ms)").data ++ u, v, ?_⟩
      simp only [String.data_append]
      rw [← huv]
      simp [List.append_assoc]
  · intro hr
    rw [hr]
    rfl
  · simp only [SynchronizedWallClockTimer.log, if_pos h]
    rw [logFold_skip normalizer reset now names s.timers]

/-- Witness for C7 at a concrete input: with normalizer 1 and an explicit
rank list, logging the present name `a` succeeds. -/
theorem claim_C7_witness :
    exceptOk (c7swct.log 3 ["a"] 1 true (some [0, 1]) 0) = true := by
  obtain ⟨line, s', hlog, -, -⟩ :=
    (claim_C7 c7swct 3 ["a"] 1 true (some [0, 1]) 0 (by norm_num)).1
  rw [hlog]
  rfl

theorem mean_of_records (t : Timer) (recs : List ℚ)
    (h : t.elapsed_records = some recs) :
    t.mean = Except.ok (trimMeanRun recs (1/10)) := by
  simp only [Timer.mean, h]
  rw [trim_mean, if_pos (by norm_num)]

theorem meanFold_spec (s : SynchronizedWallClockTimer) (normalizer : ℚ) :
    ∀ (names : List String) (acc : List (String × Option ℚ)),
      (∀ n t, n ∈ names → s.timers.lookup n = some t →
        t.elapsed_records.isSome = true) →
      names.Nodup →
      (∀ n, n ∈ names → (acc.lookup n).isSome = false) →
      meanFold s normalizer names acc =
        Except.ok (acc ++
          (names.filter (fun n => (s.timers.lookup n).isSome)).map
            (fun n => (n, meanScaled s normalizer n))) := by
  intro names
  induction names with
  | nil =>
    intro acc _ _ _
    simp [meanFold]
  | cons hd rest ih =>
    intro acc hrec hnd hacc
    obtain ⟨hd_nin, hnd'⟩ := List.nodup_cons.mp hnd
    cases hlk : s.timers.lookup hd with
    | none =>
      have hf : (s.timers.lookup hd).isSome = false := by rw [hlk]; rfl
      simp only [meanFold, hlk]
      rw [List.filter_cons]
      simp only [hf, Bool.false_eq_true, if_false]
      exact ih acc (fun n t hn => hrec n t (List.mem_cons_of_mem _ hn)) hnd'
        (fun n hn => hacc n (List.mem_cons_of_mem _ hn))
    | some t =>
      obtain ⟨recs, hrecs⟩ : ∃ recs, t.elapsed_records = some recs := by
        have hs := hrec hd t (List.mem_cons_self _ _) hlk
        cases hr : t.elapsed_records with
        | none => rw [hr] at hs; cases hs
        | some r => exact ⟨r, rfl⟩
      have hf : (s.timers.lookup hd).isSome = true := by rw [hlk]; rfl
      have hnotin : (acc.lookup hd).isSome = false :=
        hacc hd (List.mem_cons_self _ _)
      simp only [meanFold, hlk, mean_of_records t recs hrecs]
      have hdi : dictInsert acc hd
          ((trimMeanRun recs (1/10)).map (fun x => x * 1000 / normalizer)) =
          acc ++ [(hd, (trimMeanRun recs (1/10)).map
            (fun x => x * 1000 / normalizer))] := by
        rw [dictInsert, hnotin]
        rfl
      rw [hdi]
      have hacc' : ∀ n, n ∈ rest →
          ((acc ++ [(hd, (trimMeanRun recs (1/10)).map
            (fun x => x * 1000 / normalizer))]).lookup n).isSome = false := by
        intro n hn
        have hne : (n == hd) = false := by
          have : n ≠ hd := fun h => hd_nin (h ▸ hn)
          simp [this]
        rw [List.lookup_append]
        have h1 : (acc.lookup n).isSome = false :=
          hacc n (List.mem_cons_of_mem _ hn)
        cases h2 : acc.lookup n with
        | some v => rw [h2] at h1; cases h1
        | none =>
          simp [List.lookup_cons, hne]
      rw [ih (acc ++ [(hd, (trimMeanRun recs (1/10)).map
            (fun x => x * 1000 / normalizer))])
          (fun n t hn => hrec n t (List.mem_cons_of_mem _ hn)) hnd' hacc']
      rw [List.filter_cons]
      simp only [hf, if_true, List.map_cons, List.append_assoc,
        List.singleton_append]
      have hms : meanScaled s normalizer hd =
          (trimMeanRun recs (1/10)).map (fun x => x * 1000 / normalizer) := by
        simp only [meanScaled, hlk, hrecs]
      rw [hms]

/-- **C8**: with `normalizer > 0` (and every requested present timer already
aggregated, so that `mean()` is defined, and no duplicate names), `get_mean`
returns the mapping containing exactly the requested names present in the
registry, each mapped to `mean() * 1000 / normalizer`; absent names are
skipped. -/
theorem claim_C8 (s : SynchronizedWallClockTimer) (names : List String)
    (normalizer : ℚ) (reset : Bool) (h : 0 < normalizer)
    (hrec : ∀ n t, n ∈ names → s.timers.lookup n = some t →
      t.elapsed_records.isSome = true)
    (hnd : names.Nodup) :
    s.get_mean names normalizer reset =
      Except.ok ((names.filter (fun n => (s.timers.lookup n).isSome)).map
        (fun n => (n, meanScaled s normalizer n))) := by
  rw [SynchronizedWallClockTimer.get_mean, if_pos h]
  simpa using meanFold_spec s normalizer names [] hrec hnd (fun n _ => rfl)

/-- The timer named `a` whose `elapsed_records` already holds one 10 ms
duration. -/
def timerC8 : Timer := { Timer.init "a" with elapsed_records := some [10] }

/-- A registry in which only the aggregated timer `a` exists. -/
def c8swct : SynchronizedWallClockTimer := ⟨[("a", timerC8)]⟩

/-- Witness for C8 at concrete inputs: requesting `["a","b"]` with
normalizer 2 returns exactly `{"a": 10 * 1000 / 2}` and skips `b`. -/
theorem claim_C8_witness :
    c8swct.get_mean ["a", "b"] 2 true = Except.ok [("a", some 5000)] := by
  have hla : List.lookup "a" c8swct.timers = some timerC8 := by
    simp [c8swct, List.lookup_cons]
  have hrec : ∀ n t, n ∈ ["a", "b"] → c8swct.timers.lookup n = some t →
      t.elapsed_records.isSome = true := by
    intro n t hn hl
    rcases List.mem_cons.mp hn with rfl | hn2
    · rw [hla] at hl
      cases hl
      rfl
    · rcases List.mem_cons.mp hn2 with rfl | hn3
      · have hb : List.lookup "b" c8swct.timers = none := by
          simp [c8swct, List.lookup_cons]
        rw [hb] at hl
        cases hl
      · cases hn3
  rw [claim_C8 c8swct ["a", "b"] 2 true (by norm_num) hrec (by decide)]
  have h1 : (["a", "b"].filter (fun n => (c8swct.timers.lookup n).isSome)) =
      ["a"] := by
    simp [c8swct, List.lookup_cons]
  rw [h1]
  have h3 : trimMeanRun [10] (1/10) = some 10 := by
    norm_num [trimMeanRun, trimCount, pythonRound, pySlice, npMean]
  have h2 : meanScaled c8swct 2 "a" = some 5000 := by
    simp only [meanScaled, hla]
    have hrecs : timerC8.elapsed_records = some [10] := rfl
    simp only [hrecs, h3, Option.map]
    norm_num
  simp only [List.map_cons, List.map_nil, h2]
